import Mathlib

/-!
Verification of the Conan package recipe `conanfile.py` (class `BinaryenConan`).

The recipe is shallow-embedded: each lifecycle method (`source`, `build`,
`package`, `package_info`) becomes a pure Lean function that returns the
trace of calls it makes to the external build-system driver together with
its outcome.  External-collaborator behaviour (network fetch, the CMake
driver's configure/build/install steps, archive extraction, library
scanning) is represented by outcome parameters and, where a claim needs its
semantics, by definitions modelled from the specification (marked as such
in their doc comments).
-/

set_option autoImplicit false

namespace BinaryenRecipe

/-- Static identity of the recipe, embedding the class attributes of
`BinaryenConan` (`name`, `version`, `license`, `url`, `description`). -/
structure RecipeDescriptor where
  name : String
  version : String
  license : String
  url : String
  description : String
deriving DecidableEq, Repr

/-- The concrete attribute values of `BinaryenConan`. -/
def binaryenDescriptor : RecipeDescriptor :=
  { name := "binaryen"
    version := "version_101"
    license := "Apache-2.0"
    url := "https://github.com/WebAssembly/binaryen"
    description := "Cross-platform numerical analysis and data processing library" }

/-- Embeds the class attribute `_source_subfolder = "source_subfolder"`. -/
def sourceSubfolder : String := "source_subfolder"

/-- Embeds Python `%`-string formatting restricted to the `%s` conversion, as
used in `source`: each `%s` in the template consumes the next argument; every
other character is copied verbatim. -/
def formatS : List Char → List String → List Char
  | [], _ => []
  | [c], _ => [c]
  | c1 :: c2 :: rest, args =>
    if c1 = '%' ∧ c2 = 's' then
      match args with
      | a :: args2 => a.data ++ formatS rest args2
      | [] => c1 :: c2 :: formatS rest []
    else
      c1 :: formatS (c2 :: rest) args

/-- The URL template literal from `source`:
`"%s/archive/refs/tags/%s.tar.gz"`. -/
def sourceUrlTemplate : String := "%s/archive/refs/tags/%s.tar.gz"

/-- The download URL built in `source`:
`"%s/archive/refs/tags/%s.tar.gz" % (self.url, self.version)`. -/
def source_url (url version : String) : String :=
  String.mk (formatS sourceUrlTemplate.data [url, version])

theorem source_url_eq (u v : String) :
    source_url u v = u ++ "/archive/refs/tags/" ++ v ++ ".tar.gz" := by
  have htempl : sourceUrlTemplate.data =
      ['%', 's', '/', 'a', 'r', 'c', 'h', 'i', 'v', 'e', '/', 'r', 'e', 'f',
       's', '/', 't', 'a', 'g', 's', '/', '%', 's', '.', 't', 'a', 'r', '.',
       'g', 'z'] := rfl
  apply String.ext
  simp only [source_url, htempl, formatS, List.cons_append, List.nil_append,
    reduceIte, String.data_append]
  have h1 : ("/archive/refs/tags/" : String).data =
      ['/', 'a', 'r', 'c', 'h', 'i', 'v', 'e', '/', 'r', 'e', 'f', 's', '/',
       't', 'a', 'g', 's', '/'] := rfl
  have h2 : (".tar.gz" : String).data = ['.', 't', 'a', 'r', '.', 'g', 'z'] := rfl
  simp [h1, h2]

/-- The spec's error taxonomy: `AcquisitionError`, `ConfigurationError`,
`CompilationError`, `InstallationError`.  In the Python recipe these are
exceptions raised by the external collaborators (`tools.get`, the CMake
driver); the recipe itself contains no `try`/`except`. -/
inductive RecipeError where
  | acquisition
  | configuration
  | compilation
  | installation
deriving DecidableEq, Repr

/-- A build definition mapping, embedding the Python dict
`cmake.definitions` as an association list. -/
abbrev Defs := List (String × Int)

/-- Embeds Python dict assignment `d[k] = v`: replace the binding of `k`
in place if present, otherwise append it. -/
def dictSet (d : Defs) (k : String) (v : Int) : Defs :=
  match d with
  | [] => [(k, v)]
  | (k', v') :: rest =>
    if k' = k then (k, v) :: rest else (k', v') :: dictSet rest k v

/-- Embeds Python dict lookup `d.get(k)` on the association list. -/
def dictGet (k : String) : Defs → Option Int
  | [] => none
  | (k', v) :: rest => if k' = k then some v else dictGet k rest

/-- One call made by the recipe to an external collaborator: the archive
fetch (`tools.get`), the CMake driver's configure, compile and install
steps, and the library scan (`tools.collect_libs`). -/
inductive Event where
  | get (url : String) (destination : String) (stripRoot : Bool)
  | configure (sourceFolder : String) (definitions : Defs)
  | compile
  | install (definitions : Defs)
  | collectLibs
deriving DecidableEq, Repr

/-- State of a CMake driver object: the definitions mapping the recipe has
supplied to it. -/
structure CMakeState where
  definitions : Defs
deriving DecidableEq, Repr

/-- Embeds the constructor call `CMake(self)`: a fresh driver instance.  The
recipe declares no `options` attribute and assigns no definition at
construction, so a fresh instance carries no recipe-supplied definitions. -/
def newCMake : CMakeState := { definitions := [] }

/-- Embeds `source(self)`:
`tools.get("%s/archive/refs/tags/%s.tar.gz" % (self.url, self.version),
destination=self._source_subfolder, strip_root=True)`.
The single external call either succeeds or raises `AcquisitionError`;
`fetchOutcome` is that collaborator outcome, and the recipe propagates it
unchanged (it has no exception handler). -/
def source (d : RecipeDescriptor) (fetchOutcome : Except RecipeError Unit) :
    List Event × Except RecipeError Unit :=
  ([Event.get (source_url d.url d.version) sourceSubfolder true], fetchOutcome)

set_option linter.unusedVariables false in
/-- Embeds `build(self)`:
`cmake = CMake(self); cmake.definitions["BUILD_STATIC_LIB"] = 1;
cmake.configure(source_folder=self._source_subfolder); cmake.build()`.
`opts` is the option set the spec says the orchestrator supplies; the
recipe declares no options and reads none, so the body never consults it.
`cfgOutcome` and `cmpOutcome` are the collaborator outcomes of the
configure and compile steps; an exception aborts the method at the failing
call, so the compile step is only reached when configure succeeded.  On
success the applied definitions mapping is returned as the resulting
BuildConfiguration. -/
def build (opts : Defs) (cfgOutcome cmpOutcome : Except RecipeError Unit) :
    List Event × Except RecipeError Defs :=
  let cmake := newCMake
  let defs := dictSet cmake.definitions "BUILD_STATIC_LIB" 1
  match cfgOutcome with
  | .error e => ([Event.configure sourceSubfolder defs], .error e)
  | .ok _ =>
    match cmpOutcome with
    | .error e => ([Event.configure sourceSubfolder defs, Event.compile], .error e)
    | .ok _ => ([Event.configure sourceSubfolder defs, Event.compile], .ok defs)

/-- Embeds `package(self)`: `cmake = CMake(self); cmake.install()`.  A fresh
driver instance is constructed and only its install step is invoked;
`installOutcome` is that collaborator outcome, propagated unchanged. -/
def package (installOutcome : Except RecipeError Unit) :
    List Event × Except RecipeError Unit :=
  ([Event.install newCMake.definitions], installOutcome)

/-- Holds on a trace when no `compile` event occurs before the first
`configure` event, i.e. every compile step is preceded by a configure
step. -/
def configureBeforeCompile : List Event → Bool
  | [] => true
  | Event.compile :: _ => false
  | Event.configure _ _ :: _ => true
  | _ :: rest => configureBeforeCompile rest

/-- Modelled from the spec: the extraction step of `tools.get` (a Conan
framework helper, not part of this repository).  An archive is a list of
file paths, each a nonempty list of path components.  With `stripRoot`
set, the single enclosing root directory every path starts with is
stripped so that the destination directly contains the build tree; an
empty archive, a path without a root component, or paths under differing
roots fail acquisition. -/
def toolsGetExtract (archive : List (List String)) (stripRoot : Bool) :
    Except RecipeError (List (List String)) :=
  if stripRoot then
    match archive with
    | [] => .error .acquisition
    | [] :: _ => .error .acquisition
    | (r :: _) :: _ =>
      if archive.all (fun p => p.head? == some r && !p.tail.isEmpty) then
        .ok (archive.map List.tail)
      else .error .acquisition
  else .ok archive

/-- What `source` materializes in `_source_subfolder`: the archive behind
the requested URL, extracted with `strip_root=True` as the call in
`source` passes it. -/
def sourceExtract (archive : List (List String)) :
    Except RecipeError (List (List String)) :=
  toolsGetExtract archive true

/-- An archive has the single enclosing root `r` when it is nonempty and
every path in it starts with component `r` followed by at least one more
component. -/
def hasSingleRoot (r : String) (archive : List (List String)) : Prop :=
  archive ≠ [] ∧ ∀ p ∈ archive, p.head? = some r ∧ p.tail ≠ []

instance (r : String) (archive : List (List String)) :
    Decidable (hasSingleRoot r archive) := by
  unfold hasSingleRoot
  infer_instance

/-- Removes later duplicates from a list, keeping the first occurrence of
each element, so the result is ordered by discovery. -/
def orderedUnique : List String → List String
  | [] => []
  | x :: xs => x :: orderedUnique (xs.filter (fun y => y ≠ x))
termination_by l => l.length
decreasing_by
  simp only [List.length_cons]
  exact Nat.lt_succ_of_le (List.length_filter_le _ _)

theorem orderedUnique_sublist_aux :
    ∀ n l, l.length ≤ n → List.Sublist (orderedUnique l) l := by
  intro n
  induction n with
  | zero =>
    intro l hl
    rw [List.length_eq_zero.mp (Nat.le_zero.mp hl), orderedUnique]
  | succ n ih =>
    intro l hl
    match l with
    | [] =>
      rw [orderedUnique]
    | x :: xs =>
      rw [orderedUnique]
      apply List.Sublist.cons₂
      have h1 : (xs.filter (fun y => y ≠ x)).length ≤ n :=
        Nat.le_trans (List.length_filter_le _ _)
          (Nat.le_of_succ_le_succ hl)
      exact (ih _ h1).trans (List.filter_sublist xs)

theorem orderedUnique_sublist (l : List String) :
    List.Sublist (orderedUnique l) l :=
  orderedUnique_sublist_aux l.length l (Nat.le_refl _)

theorem orderedUnique_nodup_aux :
    ∀ n l, l.length ≤ n → (orderedUnique l).Nodup := by
  intro n
  induction n with
  | zero =>
    intro l hl
    rw [List.length_eq_zero.mp (Nat.le_zero.mp hl), orderedUnique]
    exact List.nodup_nil
  | succ n ih =>
    intro l hl
    match l with
    | [] =>
      rw [orderedUnique]
      exact List.nodup_nil
    | x :: xs =>
      rw [orderedUnique]
      have h1 : (xs.filter (fun y => y ≠ x)).length ≤ n :=
        Nat.le_trans (List.length_filter_le _ _)
          (Nat.le_of_succ_le_succ hl)
      refine List.nodup_cons.mpr ⟨?_, ih _ h1⟩
      intro hmem
      have hmem2 : x ∈ xs.filter (fun y => y ≠ x) :=
        (orderedUnique_sublist _).mem hmem
      have := List.of_mem_filter hmem2
      simp at this

theorem orderedUnique_nodup (l : List String) : (orderedUnique l).Nodup :=
  orderedUnique_nodup_aux l.length l (Nat.le_refl _)

theorem orderedUnique_mem_aux :
    ∀ n l a, l.length ≤ n → a ∈ l → a ∈ orderedUnique l := by
  intro n
  induction n with
  | zero =>
    intro l a hl ha
    rw [List.length_eq_zero.mp (Nat.le_zero.mp hl)] at ha
    exact absurd ha (List.not_mem_nil a)
  | succ n ih =>
    intro l a hl ha
    match l with
    | [] => exact absurd ha (List.not_mem_nil a)
    | x :: xs =>
      rw [orderedUnique]
      rcases List.mem_cons.mp ha with h | h
      · exact h ▸ List.mem_cons_self _ _
      · by_cases hax : a = x
        · exact hax ▸ List.mem_cons_self _ _
        · refine List.mem_cons_of_mem _ (ih _ _ ?_ ?_)
          · exact Nat.le_trans (List.length_filter_le _ _)
              (Nat.le_of_succ_le_succ hl)
          · exact List.mem_filter.mpr ⟨h, by simp [hax]⟩

theorem orderedUnique_mem (l : List String) (a : String) (h : a ∈ l) :
    a ∈ orderedUnique l :=
  orderedUnique_mem_aux l.length l a (Nat.le_refl _) h

/-- Modelled from the spec: the recognized library file extensions of the
staging location's library-output area. -/
def libExtensions : List String := [".a", ".so", ".dylib", ".lib", ".dll"]

/-- Modelled from the spec: recognition of one staging entry as a library
artifact.  A file with a recognized extension is reported under its file
name with the extension removed (Scenario C: `libfoo.a` is reported as
`libfoo`); any other entry is not an artifact. -/
def recognizeLib (file : String) : Option String :=
  match libExtensions.find? (fun ext => ext.data.isSuffixOf file.data) with
  | some ext => some (String.mk (file.data.take (file.data.length - ext.data.length)))
  | none => none

/-- Modelled from the spec: `tools.collect_libs` (a Conan framework helper,
not part of this repository) scans the staging location's library-output
listing and collects every recognized library file name into an
ordered-by-discovery, duplicate-free list. -/
def collect_libs (staging : List String) : List String :=
  orderedUnique (staging.filterMap recognizeLib)

/-- The consumer-facing metadata surface the recipe writes:
`self.cpp_info.libs`. -/
structure CppInfo where
  libs : List String
deriving DecidableEq, Repr

/-- Embeds `package_info(self)`:
`self.cpp_info.libs = tools.collect_libs(self)`. -/
def package_info (staging : List String) (info : CppInfo) : CppInfo :=
  { info with libs := collect_libs staging }

/-- `package_info` as a fallible phase: its body is a single assignment of
a total scan, so it always succeeds and raises nothing. -/
def package_info_run (staging : List String) (info : CppInfo) :
    Except RecipeError CppInfo :=
  .ok (package_info staging info)

/-! Claim theorems. -/

/-- C1 (counterexample): with the requested option set `{X: 5}`, `build`
succeeds but applies and returns the configuration `{BUILD_STATIC_LIB: 1}`:
the requested option `X` is absent from the returned BuildConfiguration
(its lookup is `none` although it was requested with value `5`), so the
returned configuration does not contain exactly the requested options. -/
theorem c1_round_trip_counterexample :
    (build [("X", 5)] (Except.ok ()) (Except.ok ())).2 =
      Except.ok [("BUILD_STATIC_LIB", 1)] ∧
    dictGet "X" [("BUILD_STATIC_LIB", 1)] = none ∧
    dictGet "X" [("X", 5)] = some 5 :=
  ⟨rfl, by decide, by decide⟩

/-- C1 (amended): `build` ignores the supplied option set entirely: for
every option set, the definitions applied at the configure step before the
compile step, and the BuildConfiguration returned on success, are exactly
`{BUILD_STATIC_LIB: 1}`, independent of the requested options. -/
theorem c1_build_config_amended (opts : Defs) :
    (build opts (Except.ok ()) (Except.ok ())).1 =
      [Event.configure sourceSubfolder [("BUILD_STATIC_LIB", 1)], Event.compile] ∧
    (build opts (Except.ok ()) (Except.ok ())).2 =
      Except.ok [("BUILD_STATIC_LIB", 1)] :=
  ⟨rfl, rfl⟩

/-- C2: for every descriptor with upstream URL `U` and version tag `V`, the
only request `source` makes is a `tools.get` of
`U ++ "/archive/refs/tags/" ++ V ++ ".tar.gz"` into the source subfolder
with root-stripping; in particular the descriptor
`{url: "https://example.org/foo", version: "v1.2.0"}` requests
`"https://example.org/foo/archive/refs/tags/v1.2.0.tar.gz"`. -/
theorem c2_templated_download_url :
    (∀ (d : RecipeDescriptor) (f : Except RecipeError Unit),
      (source d f).1 =
        [Event.get (d.url ++ "/archive/refs/tags/" ++ d.version ++ ".tar.gz")
          sourceSubfolder true]) ∧
    source_url "https://example.org/foo" "v1.2.0" =
      "https://example.org/foo/archive/refs/tags/v1.2.0.tar.gz" := by
  constructor
  · intro d f
    simp [source, source_url_eq]
  · rw [source_url_eq]
    rfl

/-- C3: for every archive with a single enclosing root directory, the
extraction `source` performs (with `strip_root=True`) succeeds and strips
exactly that root: the subfolder's entries are the original paths minus the
root component, each a nonempty path of the build tree, so the subfolder
directly contains the build tree and never the wrapper directory. -/
theorem c3_strip_root_invariant (archive : List (List String)) (r : String)
    (h : hasSingleRoot r archive) :
    sourceExtract archive = Except.ok (archive.map List.tail) ∧
    ∀ q ∈ archive.map List.tail, q.isEmpty = false ∧ r :: q ∈ archive := by
  obtain ⟨hne, hall⟩ := h
  constructor
  · obtain ⟨p, more, rfl⟩ : ∃ p more, archive = p :: more := by
      cases archive with
      | nil => exact absurd rfl hne
      | cons p more => exact ⟨p, more, rfl⟩
    obtain ⟨hh, ht⟩ := hall p (List.mem_cons_self _ _)
    cases p with
    | nil => simp at hh
    | cons r0 prest =>
      have hr0 : r0 = r := by simpa using hh
      subst hr0
      unfold sourceExtract toolsGetExtract
      have hcond : ((r0 :: prest) :: more).all
          (fun p => p.head? == some r0 && !p.tail.isEmpty) = true := by
        rw [List.all_eq_true]
        intro x hx
        obtain ⟨hxh, hxt⟩ := hall x hx
        cases hxtail : x.tail with
        | nil => exact absurd hxtail hxt
        | cons a as => simp [hxh, hxtail]
      simp [hcond]
  · intro q hq
    rw [List.mem_map] at hq
    obtain ⟨p, hpmem, rfl⟩ := hq
    obtain ⟨hh, ht⟩ := hall p hpmem
    constructor
    · cases hptail : p.tail with
      | nil => exact absurd hptail ht
      | cons a as => simp [hptail]
    · have hp : p = r :: p.tail := by
        cases p with
        | nil => simp at hh
        | cons a as =>
          have : a = r := by simpa using hh
          simp [this]
      rw [← hp]
      exact hpmem

/-- C3 (witness): the archive with single root `foo-1.2.0` containing
`foo-1.2.0/CMakeLists.txt` extracts to a subfolder whose direct child is
`CMakeLists.txt`. -/
theorem c3_strip_root_invariant_witness :
    hasSingleRoot "foo-1.2.0" [["foo-1.2.0", "CMakeLists.txt"]] ∧
    sourceExtract [["foo-1.2.0", "CMakeLists.txt"]] =
      Except.ok [["CMakeLists.txt"]] :=
  ⟨by decide,
   (c3_strip_root_invariant [["foo-1.2.0", "CMakeLists.txt"]] "foo-1.2.0"
      (by decide)).1⟩

/-- C4: describing the artifacts of one staging listing twice yields the
same result both times (the second `package_info` overwrites `cpp_info.libs`
with the identical list), and the produced list is duplicate-free, a
discovery-ordered selection of the recognized library names, and contains
every recognized library name. -/
theorem c4_describe_idempotent (staging : List String) (info : CppInfo) :
    package_info staging (package_info staging info) =
      package_info staging info ∧
    (package_info staging info).libs.Nodup ∧
    List.Sublist (package_info staging info).libs
      (staging.filterMap recognizeLib) ∧
    ∀ a ∈ staging.filterMap recognizeLib,
      a ∈ (package_info staging info).libs := by
  refine ⟨rfl, orderedUnique_nodup _, orderedUnique_sublist _, ?_⟩
  intro a ha
  exact orderedUnique_mem _ a ha

/-- C4 (witness): on the staging listing
`["libfoo.a", "libbar.so", "libfoo.a"]` the recognized name `libfoo` is
reported among the artifacts. -/
theorem c4_describe_idempotent_witness :
    "libfoo" ∈ (package_info ["libfoo.a", "libbar.so", "libfoo.a"]
      { libs := [] }).libs :=
  (c4_describe_idempotent ["libfoo.a", "libbar.so", "libfoo.a"]
      { libs := [] }).2.2.2 "libfoo" (by decide)

/-- C5: `package_info` on an empty staging listing succeeds (it raises
nothing) and reports the empty artifact list. -/
theorem c5_empty_staging_ok (info : CppInfo) :
    package_info_run [] info = Except.ok { libs := [] } ∧
    collect_libs [] = [] := by
  constructor
  · simp [package_info_run, package_info, collect_libs, orderedUnique]
  · simp [collect_libs, orderedUnique]

/-- C6: in every invocation of `build`, whatever the configure and compile
outcomes, no compile event ever precedes the configure event, and every
configure event passes the source subfolder as the build root. -/
theorem c6_configure_precedes_compile (opts : Defs)
    (cfg cmp : Except RecipeError Unit) :
    configureBeforeCompile (build opts cfg cmp).1 = true ∧
    ∀ f defs, Event.configure f defs ∈ (build opts cfg cmp).1 →
      f = sourceSubfolder := by
  cases cfg with
  | error e =>
    refine ⟨rfl, ?_⟩
    intro f defs hmem
    simp [build] at hmem
    exact hmem.1
  | ok _ =>
    cases cmp with
    | error e =>
      refine ⟨rfl, ?_⟩
      intro f defs hmem
      simp [build] at hmem
      exact hmem.1
    | ok _ =>
      refine ⟨rfl, ?_⟩
      intro f defs hmem
      simp [build] at hmem
      exact hmem.1

/-- C6 (witness): in the fully successful run with no options the configure
event present in the trace names the source subfolder. -/
theorem c6_configure_precedes_compile_witness :
    "source_subfolder" = sourceSubfolder :=
  (c6_configure_precedes_compile [] (Except.ok ()) (Except.ok ())).2
    "source_subfolder" [("BUILD_STATIC_LIB", 1)] (by decide)

/-- C7: the subfolder is one shared constant of the recipe: `source`
extracts into `sourceSubfolder` (the class attribute `_source_subfolder`),
and every configure call `build` makes passes that same constant as the
build root, without re-deriving it. -/
theorem c7_subfolder_stable (d : RecipeDescriptor)
    (fetch : Except RecipeError Unit) (opts : Defs)
    (cfg cmp : Except RecipeError Unit) :
    (source d fetch).1 =
      [Event.get (source_url d.url d.version) sourceSubfolder true] ∧
    ∀ f defs, Event.configure f defs ∈ (build opts cfg cmp).1 →
      f = sourceSubfolder := by
  refine ⟨rfl, ?_⟩
  intro f defs hmem
  cases cfg with
  | error e =>
    simp [build] at hmem
    exact hmem.1
  | ok _ =>
    cases cmp with
    | error e =>
      simp [build] at hmem
      exact hmem.1
    | ok _ =>
      simp [build] at hmem
      exact hmem.1

/-- C7 (witness): in a concrete invocation the destination `source` used
and the build root `build` used coincide. -/
theorem c7_subfolder_stable_witness :
    (source binaryenDescriptor (Except.ok ())).1 =
      [Event.get (source_url binaryenDescriptor.url binaryenDescriptor.version)
        sourceSubfolder true] ∧
    "source_subfolder" = sourceSubfolder :=
  ⟨(c7_subfolder_stable binaryenDescriptor (Except.ok ()) []
      (Except.ok ()) (Except.ok ())).1,
   (c7_subfolder_stable binaryenDescriptor (Except.ok ()) []
      (Except.ok ()) (Except.ok ())).2
     "source_subfolder" [("BUILD_STATIC_LIB", 1)] (by decide)⟩

/-- C8: each of the four failure outcomes propagates unchanged out of the
phase that raised it (the recipe catches nothing), and a configure failure
terminates `build` at the configure call: its trace is the single configure
event, with no compile attempt and no retry. -/
theorem c8_errors_propagate (d : RecipeDescriptor) (e : RecipeError)
    (opts : Defs) (cmp : Except RecipeError Unit) :
    (source d (Except.error e)).2 = Except.error e ∧
    (build opts (Except.error e) cmp).2 = Except.error e ∧
    (build opts (Except.ok ()) (Except.error e)).2 = Except.error e ∧
    (package (Except.error e)).2 = Except.error e ∧
    (build opts (Except.error e) cmp).1 =
      [Event.configure sourceSubfolder [("BUILD_STATIC_LIB", 1)]] :=
  ⟨rfl, rfl, rfl, rfl, rfl⟩

/-- C9: in every invocation of `build`, whatever the outcomes and the
requested options, the definitions passed to the configure step always bind
`BUILD_STATIC_LIB` to `1`: no input yields a configure call without the
static-library definition set. -/
theorem c9_static_lib_always_set (opts : Defs)
    (cfg cmp : Except RecipeError Unit) :
    ∀ f defs, Event.configure f defs ∈ (build opts cfg cmp).1 →
      dictGet "BUILD_STATIC_LIB" defs = some 1 := by
  intro f defs hmem
  have hdefs : defs = [("BUILD_STATIC_LIB", 1)] := by
    cases cfg with
    | error e =>
      simp [build] at hmem
      exact hmem.2
    | ok _ =>
      cases cmp with
      | error e =>
        simp [build] at hmem
        exact hmem.2
      | ok _ =>
        simp [build] at hmem
        exact hmem.2
  rw [hdefs]
  decide

/-- C9 (witness): in the concrete successful run the configure definitions
bind `BUILD_STATIC_LIB` to `1`. -/
theorem c9_static_lib_always_set_witness :
    dictGet "BUILD_STATIC_LIB" [("BUILD_STATIC_LIB", 1)] = some 1 :=
  c9_static_lib_always_set [] (Except.ok ()) (Except.ok ())
    sourceSubfolder [("BUILD_STATIC_LIB", 1)] (by decide)

/-- C10: `package` constructs a fresh driver instance, whose definitions
mapping is empty (in particular `BUILD_STATIC_LIB` is unbound in it), and
its trace is exactly one install call carrying that empty mapping: no
configure, no compile, and none of the definitions applied during `build`
reach the install step, whatever `build` returned. -/
theorem c10_package_fresh_install (inst : Except RecipeError Unit)
    (opts : Defs) :
    (package inst).1 = [Event.install []] ∧
    newCMake.definitions = [] ∧
    dictGet "BUILD_STATIC_LIB" newCMake.definitions = none ∧
    (build opts (Except.ok ()) (Except.ok ())).2 =
      Except.ok [("BUILD_STATIC_LIB", 1)] ∧
    ((package inst).1.contains
      (Event.install [("BUILD_STATIC_LIB", 1)])) = false :=
  ⟨rfl, rfl, rfl, rfl, rfl⟩

end BinaryenRecipe
